import Mathlib

/-!
# Fatebound Breach — verification of the deterministic game engine

Shallow embedding of the two mirrored implementations of the Fatebound
Breach turn engine:

* the client-side TypeScript engine (`vrfMapper.ts`, `turnResolver.ts`,
  `gameState.ts`), embedded in namespace `Client`;
* the on-chain Solidity verifier (`TurnVerifier.sol`), embedded in
  namespace `Sol`.

Machine integers are modelled as `Nat` (all Solidity arithmetic in the
embedded fragment is guarded subtraction and small addition; explicit
bounds hypotheses carry the uint8/uint16/uint32 domains where relevant).
Fallible code (`throw` in TypeScript, `require`/panics in Solidity)
returns `Except String`.

Both engines hash with Keccak-256, so the development starts with an
executable Keccak-256 over byte lists (bytes are `Nat < 256`, lanes are
`Nat < 2^64` with explicit masking).
-/

set_option maxRecDepth 4000

namespace FB

/-! ## Keccak-256 (legacy 0x01 padding, as used by keccak256 in both engines) -/

/-- 64-bit left rotation on a lane (`Nat` masked to 64 bits). -/
def rotl64 (x n : Nat) : Nat :=
  ((x <<< n) % 2 ^ 64) ||| (x >>> (64 - n))

/-- Round constants of Keccak-f[1600] (rounds 0–5, see `keccakRC`). -/
def keccakRCa : List Nat :=
  [0x0000000000000001, 0x0000000000008082, 0x800000000000808a,
   0x8000000080008000, 0x000000000000808b, 0x0000000080000001]

/-- Round constants of Keccak-f[1600] (rounds 6–11, see `keccakRC`). -/
def keccakRCb : List Nat :=
  [0x8000000080008081, 0x8000000000008009, 0x000000000000008a,
   0x0000000000000088, 0x0000000080008009, 0x000000008000000a]

/-- Round constants of Keccak-f[1600] (rounds 12–17, see `keccakRC`). -/
def keccakRCc : List Nat :=
  [0x000000008000808b, 0x800000000000008b, 0x8000000000008089,
   0x8000000000008003, 0x8000000000008002, 0x8000000000000080]

/-- Round constants of Keccak-f[1600] (rounds 18–23, see `keccakRC`). -/
def keccakRCd : List Nat :=
  [0x000000000000800a, 0x800000008000000a, 0x8000000080008081,
   0x8000000000008080, 0x0000000080000001, 0x8000000080008008]

/-- The 24 round constants of Keccak-f[1600]. -/
def keccakRC : List Nat :=
  keccakRCa ++ keccakRCb ++ keccakRCc ++ keccakRCd

/-- Rotation offsets, indexed by `x + 5*y`, assembled row by row
(rows `y = 0` through `y = 4`). -/
def keccakRot : List Nat :=
  [0, 1, 62, 28, 27] ++ [36, 44, 6, 55, 20] ++ [3, 10, 43, 25, 39] ++
    [41, 45, 15, 21, 8] ++ [18, 2, 61, 56, 14]

/-- θ step. The state is a list of 25 lanes, lane `(x, y)` at index `x + 5*y`. -/
def keccakTheta (s : List Nat) : List Nat :=
  let C := (List.range 5).map fun x =>
    s.getD x 0 ^^^ s.getD (x + 5) 0 ^^^ s.getD (x + 10) 0 ^^^
      s.getD (x + 15) 0 ^^^ s.getD (x + 20) 0
  let D := (List.range 5).map fun x =>
    C.getD ((x + 4) % 5) 0 ^^^ rotl64 (C.getD ((x + 1) % 5) 0) 1
  (List.range 25).map fun i => s.getD i 0 ^^^ D.getD (i % 5) 0

/-- ρ and π steps combined: output lane `(xt, yt)` is the rotated input lane
`(x, y)` with `y = xt` and `x ≡ 3*(yt - 3*xt) (mod 5)`. -/
def keccakRhoPi (s : List Nat) : List Nat :=
  (List.range 25).map fun i =>
    let xt := i % 5
    let yt := i / 5
    let y := xt
    let x := (3 * (yt + 15 - 3 * xt)) % 5
    rotl64 (s.getD (x + 5 * y) 0) (keccakRot.getD (x + 5 * y) 0)

/-- χ step (`~b` is `b ^^^ (2^64 - 1)` since lanes stay below `2^64`). -/
def keccakChi (s : List Nat) : List Nat :=
  (List.range 25).map fun i =>
    let x := i % 5
    let y := i / 5
    s.getD i 0 ^^^
      ((s.getD ((x + 1) % 5 + 5 * y) 0 ^^^ (2 ^ 64 - 1)) &&&
        s.getD ((x + 2) % 5 + 5 * y) 0)

/-- One round of Keccak-f[1600]. -/
def keccakRound (s : List Nat) (rc : Nat) : List Nat :=
  let s3 := keccakChi (keccakRhoPi (keccakTheta s))
  s3.set 0 (s3.getD 0 0 ^^^ rc)

/-- Keccak-f[1600]: 24 rounds. -/
def keccakF (s : List Nat) : List Nat :=
  keccakRC.foldl keccakRound s

/-- Multi-rate padding for rate 136 (Keccak-256 with the legacy 0x01 domain
byte used by Ethereum's keccak256). -/
def keccakPad (msg : List Nat) : List Nat :=
  let padLen := 136 - msg.length % 136
  if padLen = 1 then msg ++ [0x81]
  else msg ++ [0x01] ++ List.replicate (padLen - 2) 0 ++ [0x80]

/-- Little-endian byte list to lane. -/
def bytesToLane (bs : List Nat) : Nat :=
  bs.foldr (fun b acc => acc * 256 + b) 0

/-- XOR a 136-byte block into the first 17 lanes of the state. -/
def absorbBlock (s block : List Nat) : List Nat :=
  (List.range 25).map fun i =>
    if i < 17 then s.getD i 0 ^^^ bytesToLane ((block.drop (8 * i)).take 8)
    else s.getD i 0

/-- Split a list into 136-byte chunks (`fuel` = number of chunks). -/
def chunks136 : Nat → List Nat → List (List Nat)
  | 0, _ => []
  | n + 1, l => l.take 136 :: chunks136 n (l.drop 136)

/-- Lane to 8 little-endian bytes. -/
def laneToBytes (x : Nat) : List Nat :=
  (List.range 8).map fun i => (x >>> (8 * i)) % 256

/-- Keccak-256 of a byte list, as a list of 32 bytes. -/
def keccak256 (msg : List Nat) : List Nat :=
  let padded := keccakPad msg
  let final := (chunks136 (padded.length / 136) padded).foldl
    (fun s b => keccakF (absorbBlock s b)) (List.replicate 25 0)
  ((final.take 4).map laneToBytes).flatten

/-- Sanity anchor: `keccak256("abc")` matches the published test vector
`4e03657aea45a94fc7d47ba826c8d667c0d1e6e33a64a036ec44f58fa12d6c45`. -/
example :
    keccak256 [97, 98, 99] =
      [0x4e, 0x03, 0x65, 0x7a, 0xea, 0x45, 0xa9, 0x4f, 0xc7, 0xd4, 0x7b, 0xa8,
       0x26, 0xc8, 0xd6, 0x67, 0xc0, 0xd1, 0xe6, 0xe3, 0x3a, 0x64, 0xa0, 0x36,
       0xec, 0x44, 0xf5, 0x8f, 0xa1, 0x2d, 0x6c, 0x45] := by
  decide

/-! ## Shared game enumerations (TypeScript `gameState.ts` / Solidity enums) -/

/-- The five packet kinds (`PacketType` union in `gameState.ts`;
`enum PacketType` in `TurnVerifier.sol`). -/
inductive PacketType where
  | MISS | ATTACK | DEFEND | CRIT | HEAL
deriving DecidableEq, Repr

/-- Packet rarity (client-side only). -/
inductive Rarity where
  | COMMON | RARE | LEGENDARY
deriving DecidableEq, Repr

/-- Turn anomaly kinds (`AnomalyType` in `gameState.ts`). -/
inductive AnomalyType where
  | STABLE | ION_STORM | DATA_LEAK | OVERCLOCK
deriving DecidableEq, Repr

/-- ASCII bytes of a string (used for the `"Turn"` marker). -/
def strBytes (s : String) : List Nat := s.toList.map Char.toNat

/-- ASCII decimal digits of a natural number. -/
def natDecBytes (n : Nat) : List Nat := (Nat.toDigits 10 n).map Char.toNat

/-- Decimal string of a natural number (mirrors JS number → string for
the nonnegative integers that occur here). -/
def natDecStr (n : Nat) : String := ⟨Nat.toDigits 10 n⟩

namespace Client

/-! ### Client engine — `vrfMapper.ts` -/

/-- A client packet (`Packet` interface in `gameState.ts`). -/
structure Packet where
  id : String
  hexValue : String
  byteValue : Nat
  type : PacketType
  rarity : Rarity
  value : Nat
deriving DecidableEq, Repr

/-- Uppercase hex digit. -/
def hexDigit (n : Nat) : Char :=
  if n < 10 then Char.ofNat (48 + n) else Char.ofNat (55 + n)

/-- `0x`-prefixed two-digit uppercase hex of a byte
(`byte.toString(16).padStart(2, "0").toUpperCase()` with `0x` prepended). -/
def byteToHexStr (b : Nat) : String :=
  String.mk [Char.ofNat 48, Char.ofNat 120, hexDigit (b / 16 % 16), hexDigit (b % 16)]

/-- `PACKET_VALUES` table from `gameState.ts`. -/
def PACKET_VALUES : PacketType → Nat
  | .MISS => 0
  | .ATTACK => 5
  | .DEFEND => 5
  | .CRIT => 15
  | .HEAL => 10

/-- `mapByteToPacketType` from `vrfMapper.ts`: threshold cascade over the
`PACKET_THRESHOLDS` table; throws for a byte outside `[0, 255]` (negative
inputs are unrepresentable in the `Nat` domain). -/
def mapByteToPacketType (byte : Nat) : Except String PacketType :=
  if byte > 255 then .error "Invalid byte value"
  else if byte ≤ 19 then .ok .MISS
  else if byte ≤ 150 then .ok .ATTACK
  else if byte ≤ 200 then .ok .DEFEND
  else if byte ≤ 240 then .ok .CRIT
  else .ok .HEAL

/-- `mapByteToPacket` from `vrfMapper.ts`. -/
def mapByteToPacket (byte idx rarityByte : Nat) : Except String Packet := do
  let t ← mapByteToPacketType byte
  let rarity : Rarity :=
    if rarityByte > 240 then .LEGENDARY
    else if rarityByte > 200 then .RARE
    else .COMMON
  pure { id := "packet-" ++ natDecStr idx
         hexValue := byteToHexStr byte
         byteValue := byte
         type := t
         rarity := rarity
         value := PACKET_VALUES t }

/-- `calculatePacketCount` from `vrfMapper.ts`: throws for `turn < 1`,
otherwise `5 + turn % 3`. The JS `number` turn is modelled as `Int`. -/
def calculatePacketCount (turn : Int) : Except String Nat :=
  if turn < 1 then .error "Invalid turn number"
  else .ok (5 + (turn % 3).toNat)

/-- Decimal ASCII bytes of an integer (only nonnegative turns reach this
in guarded code; the sign case mirrors JS `toString`). -/
def intDecBytes (i : Int) : List Nat :=
  if i < 0 then 45 :: natDecBytes i.natAbs else natDecBytes i.natAbs

/-- `deriveTurnSeed` from `vrfMapper.ts`:
`keccak256(seedBytes ++ utf8("Turn" + turn))`. The level seed is taken as
its byte list (the hex string round-trip `toBytes`/`hexToBytes` is the
identity on the byte content). -/
def deriveTurnSeed (levelSeed : List Nat) (turn : Int) : List Nat :=
  keccak256 (levelSeed ++ strBytes "Turn" ++ intDecBytes turn)

/-- `derivePacketsFromSeed` from `vrfMapper.ts`: packet count from the
turn, turn seed from the level seed, anomaly from byte 12, jackpot flag
from byte 31, and two sub-seed bytes consumed per packet (type byte at
index `2*i`, rarity byte at index `2*i + 1`, both wrapping modulo the
seed length). -/
def derivePacketsFromSeed (levelSeed : List Nat) (turn : Int) :
    Except String (List Packet × AnomalyType × Bool) := do
  let packetCount ← calculatePacketCount turn
  let seedBytes := deriveTurnSeed levelSeed turn
  let anomalyByte := seedBytes.getD 12 0
  let anomaly : AnomalyType :=
    if anomalyByte ≤ 30 then .ION_STORM
    else if anomalyByte ≤ 60 then .DATA_LEAK
    else if anomalyByte ≤ 90 then .OVERCLOCK
    else .STABLE
  let jackpotHit := (seedBytes.getD 31 0) ≥ 250
  let packets ← (List.range packetCount).mapM fun i =>
    mapByteToPacket (seedBytes.getD (2 * i % seedBytes.length) 0) i
      (seedBytes.getD ((2 * i + 1) % seedBytes.length) 0)
  pure (packets, anomaly, jackpotHit)

end Client

namespace Sol

/-! ### On-chain verifier — `TurnVerifier.sol` -/

/-- A Solidity packet (`struct Packet`): raw byte, derived type and value. -/
structure Packet where
  byteValue : Nat
  packetType : PacketType
  value : Nat
deriving DecidableEq, Repr

/-- `TurnVerifier.mapByteToPacketType`: the same threshold cascade, total
on the uint8 domain. -/
def mapByteToPacketType (byteValue : Nat) : PacketType :=
  if byteValue ≤ 19 then .MISS
  else if byteValue ≤ 150 then .ATTACK
  else if byteValue ≤ 200 then .DEFEND
  else if byteValue ≤ 240 then .CRIT
  else .HEAL

/-- `TurnVerifier.getPacketValue`. -/
def getPacketValue : PacketType → Nat
  | .MISS => 0
  | .ATTACK => 5
  | .DEFEND => 5
  | .CRIT => 15
  | .HEAL => 10

/-- `TurnVerifier.calculatePacketCount`: `5 + (turn % 3)` with **no**
turn-validity check (the argument is a uint8). -/
def calculatePacketCount (turn : Nat) : Nat :=
  5 + turn % 3

/-- `TurnVerifier.deriveTurnSeed`:
`keccak256(abi.encodePacked(levelSeed, "Turn", turn))` — the uint8 turn is
packed as a **single raw byte**, not as decimal ASCII. -/
def deriveTurnSeed (levelSeed : List Nat) (turn : Nat) : List Nat :=
  keccak256 (levelSeed ++ strBytes "Turn" ++ [turn % 256])

/-- `TurnVerifier.deriveHand`: **one** sub-seed byte per packet, at index
`i % 32`. -/
def deriveHand (levelSeed : List Nat) (turn : Nat) : List Packet :=
  let packetCount := calculatePacketCount turn
  let turnSeed := deriveTurnSeed levelSeed turn
  (List.range packetCount).map fun i =>
    let byteValue := turnSeed.getD (i % 32) 0
    let pType := mapByteToPacketType byteValue
    { byteValue := byteValue, packetType := pType, value := getPacketValue pType }

end Sol

/-- The all-zero 256-bit session seed, used as a concrete test vector. -/
def zeroSeed : List Nat := List.replicate 32 0

/-- Decidable equality for `Except` (both engines signal failures as
`Except String`). -/
instance {ε α : Type} [DecidableEq ε] [DecidableEq α] : DecidableEq (Except ε α) := fun
  | .error e, .error f =>
    if h : e = f then .isTrue (by rw [h]) else
      .isFalse (by intro hh; cases hh; exact h rfl)
  | .error _, .ok _ => .isFalse (by intro h; cases h)
  | .ok _, .error _ => .isFalse (by intro h; cases h)
  | .ok a, .ok b =>
    if h : a = b then .isTrue (by rw [h]) else
      .isFalse (by intro hh; cases hh; exact h rfl)

/-! ## C2 — byte→kind partition, identical in both engines -/

/-- Claim C2: for every byte in `[0,255]` the client table returns exactly
one kind, the on-chain table returns the same kind, and the five kinds are
characterized by the inclusive, exhaustive, non-overlapping ranges
MISS `[0,19]`, ATTACK `[20,150]`, DEFEND `[151,200]`, CRIT `[201,240]`,
HEAL `[241,255]`. -/
theorem byteToKindPartition (b : Nat) (hb : b ≤ 255) :
    Client.mapByteToPacketType b = .ok (Sol.mapByteToPacketType b) ∧
    (Sol.mapByteToPacketType b = .MISS ↔ b ≤ 19) ∧
    (Sol.mapByteToPacketType b = .ATTACK ↔ 20 ≤ b ∧ b ≤ 150) ∧
    (Sol.mapByteToPacketType b = .DEFEND ↔ 151 ≤ b ∧ b ≤ 200) ∧
    (Sol.mapByteToPacketType b = .CRIT ↔ 201 ≤ b ∧ b ≤ 240) ∧
    (Sol.mapByteToPacketType b = .HEAL ↔ 241 ≤ b ∧ b ≤ 255) := by
  have h : ∀ x : Fin 256,
      Client.mapByteToPacketType x.val = .ok (Sol.mapByteToPacketType x.val) ∧
      (Sol.mapByteToPacketType x.val = .MISS ↔ x.val ≤ 19) ∧
      (Sol.mapByteToPacketType x.val = .ATTACK ↔ 20 ≤ x.val ∧ x.val ≤ 150) ∧
      (Sol.mapByteToPacketType x.val = .DEFEND ↔ 151 ≤ x.val ∧ x.val ≤ 200) ∧
      (Sol.mapByteToPacketType x.val = .CRIT ↔ 201 ≤ x.val ∧ x.val ≤ 240) ∧
      (Sol.mapByteToPacketType x.val = .HEAL ↔ 241 ≤ x.val ∧ x.val ≤ 255) := by
    decide
  exact h ⟨b, by omega⟩

/-- Witness for C2 at the ATTACK upper boundary byte 150. -/
theorem byteToKindPartitionWitness :
    Client.mapByteToPacketType 150 = .ok (Sol.mapByteToPacketType 150) :=
  (byteToKindPartition 150 (by decide)).1

/-! ## C5 — hand-size formula and the missing on-chain turn check -/

/-- Claim C5, counterexample: the on-chain `calculatePacketCount` has no
`InvalidTurn` check at all — at turn 0 (the only uint8 value below 1) it
returns a 5-packet hand size instead of failing. -/
theorem solPacketCountTurnZero : Sol.calculatePacketCount 0 = 5 := rfl

/-- Claim C5 as amended: the client `calculatePacketCount` fails for every
turn below 1 and returns `5 + turn mod 3` for every turn at least 1
(turn 1 → 6, turn 2 → 7, turn 3 → 5, turn 4 → 6); the on-chain
`calculatePacketCount` performs no validity check and returns
`5 + turn mod 3` for every uint8 turn, in particular 5 at turn 0. -/
theorem calculatePacketCountAmended :
    (∀ t : Int, t < 1 → Client.calculatePacketCount t = .error "Invalid turn number") ∧
    (∀ t : Int, 1 ≤ t → Client.calculatePacketCount t = .ok (5 + (t % 3).toNat)) ∧
    (∀ t : Nat, Sol.calculatePacketCount t = 5 + t % 3) := by
  refine ⟨fun t ht => ?_, fun t ht => ?_, fun t => rfl⟩
  · simp [Client.calculatePacketCount, ht]
  · simp [Client.calculatePacketCount, not_lt.mpr ht]

/-- Witness for the amended C5 at turns 0, 4 and 2. -/
theorem calculatePacketCountAmendedWitness :
    Client.calculatePacketCount 0 = .error "Invalid turn number" ∧
    Client.calculatePacketCount 4 = .ok 6 ∧
    Sol.calculatePacketCount 2 = 7 :=
  ⟨calculatePacketCountAmended.1 0 (by decide),
   calculatePacketCountAmended.2.1 4 (by decide),
   calculatePacketCountAmended.2.2 2⟩

namespace Client

/-! ### Client engine — `gameState.ts` state types and `turnResolver.ts` -/

/-- Grid position. -/
structure Position where
  x : Nat
  y : Nat
deriving DecidableEq, Repr

/-- Grid dimensions. -/
structure Grid where
  width : Nat
  height : Nat
deriving DecidableEq, Repr

/-- Player entity (`Player` interface). -/
structure Player where
  hp : Nat
  maxHp : Nat
  shield : Nat
  position : Position
deriving DecidableEq, Repr

/-- Enemy intent (`EnemyIntent` union). -/
inductive EnemyIntent where
  | ATTACK | DEFEND | BUFF | IDLE
deriving DecidableEq, Repr

/-- Enemy entity (`Enemy` interface). -/
structure Enemy where
  id : String
  name : String
  hp : Nat
  maxHp : Nat
  type : String
  position : Position
  intent : EnemyIntent
  damage : Nat
deriving DecidableEq, Repr

/-- Packet-to-target assignment (`Assignment` interface). -/
structure Assignment where
  packetId : String
  targetId : String
deriving DecidableEq, Repr

/-- Game phase (`GameStatus` union). -/
inductive GameStatus where
  | INIT | WAITING_FOR_VRF | PLANNING | EXECUTING | RESOLVED
deriving DecidableEq, Repr

/-- Turn outcome (`TurnResult` union). -/
inductive TurnResult where
  | VICTORY | DEFEAT | CONTINUE
deriving DecidableEq, Repr

/-- Complete client game state (`GameState` interface). -/
structure GameState where
  status : GameStatus
  levelSeed : String
  turnCounter : Nat
  levelId : Nat
  grid : Grid
  player : Player
  enemies : List Enemy
  dataStream : List Packet
  assignments : List Assignment
  score : Nat
  anomaly : AnomalyType
  jackpotHit : Bool
deriving DecidableEq, Repr

/-- `applyDamageToPlayer` from `turnResolver.ts`: shield absorbs first,
the remainder hits hp, hp floored at 0 (`Nat` subtraction is the floor). -/
def applyDamageToPlayer (state : GameState) (damage : Nat) : GameState :=
  let shieldAbsorbed := min state.player.shield damage
  let remainingDamage := damage - shieldAbsorbed
  let p1 :=
    if 0 < state.player.shield then
      { state.player with shield := state.player.shield - shieldAbsorbed }
    else state.player
  let p2 := if 0 < remainingDamage then { p1 with hp := p1.hp - remainingDamage } else p1
  { state with player := p2 }

/-- Effective packet magnitude as computed inline in `applyPacketEffect`:
rarity multiplier (COMMON ×1, RARE ×1.5 rounded down, LEGENDARY ×2), then
the OVERCLOCK anomaly adds 5 to ATTACK packets. -/
def effectiveValue (anomaly : AnomalyType) (packet : Packet) : Nat :=
  let v :=
    if packet.rarity = .RARE then packet.value * 3 / 2
    else if packet.rarity = .LEGENDARY then packet.value * 2
    else packet.value
  if anomaly = .OVERCLOCK ∧ packet.type = .ATTACK then v + 5 else v

/-- In-place mutation of the (unique) found enemy object: update the first
enemy with the given id. -/
def updateFirstEnemy : List Enemy → String → (Enemy → Enemy) → List Enemy
  | [], _, _ => []
  | e :: rest, tid, f =>
    if e.id = tid then f e :: rest else e :: updateFirstEnemy rest tid f

/-- `applyPacketEffect` from `turnResolver.ts`. -/
def applyPacketEffect (state : GameState) (packet : Packet) (targetId : String) :
    Except String GameState :=
  if targetId = "trash" then .ok state
  else
    let v := effectiveValue state.anomaly packet
    if targetId = "player" then
      .ok (match packet.type with
        | .HEAL =>
          { state with player :=
              { state.player with hp := min (state.player.hp + v) state.player.maxHp } }
        | .DEFEND =>
          { state with player := { state.player with shield := state.player.shield + v } }
        | .ATTACK => applyDamageToPlayer state v
        | .CRIT => applyDamageToPlayer state v
        | .MISS => state)
    else
      match state.enemies.find? (fun e => e.id == targetId) with
      | none => .error "Invalid target: not found"
      | some enemy =>
        if enemy.type = "CACHE_GOLD" then
          if packet.type = .CRIT then
            .ok { state with
                  enemies := updateFirstEnemy state.enemies targetId fun e => { e with hp := 0 } }
          else .ok state
        else
          match packet.type with
          | .ATTACK =>
            .ok { state with
                  enemies := updateFirstEnemy state.enemies targetId fun e =>
                    { e with hp := e.hp - v } }
          | .CRIT =>
            .ok { state with
                  enemies := updateFirstEnemy state.enemies targetId fun e =>
                    { e with hp := e.hp - v } }
          | _ => .ok state

/-- `executeEnemyPhase` from `turnResolver.ts`: every living enemy with
ATTACK intent damages the player. -/
def executeEnemyPhase (state : GameState) : GameState :=
  (state.enemies.filter fun e => decide (0 < e.hp)).foldl
    (fun st e => if e.intent = .ATTACK then applyDamageToPlayer st e.damage else st)
    state

/-- `removeDeadEnemies` from `turnResolver.ts`. -/
def removeDeadEnemies (state : GameState) : GameState :=
  { state with enemies := state.enemies.filter fun e => decide (0 < e.hp) }

/-- `checkTurnResult` from `turnResolver.ts`. -/
def checkTurnResult (state : GameState) : TurnResult :=
  if state.player.hp = 0 then .DEFEAT
  else if state.enemies.length = 0 ∨ ∀ e ∈ state.enemies, e.hp = 0 then .VICTORY
  else .CONTINUE

/-- Target validity test from `validateAssignments`. -/
def validTarget (state : GameState) (tid : String) : Bool :=
  tid == "player" || tid == "trash" || state.enemies.any fun e => e.id == tid

/-- The validation loop of `validateAssignments`, carrying the
`assignedPackets` set (a duplicate-free list). -/
def validateLoop (packetIds : List String) (state : GameState) :
    List Assignment → List String → Except String (List String)
  | [], seen => .ok seen
  | a :: rest, seen =>
    if !(packetIds.contains a.packetId) then .error "Invalid packet ID"
    else if seen.contains a.packetId then .error "Packet already assigned"
    else if !(validTarget state a.targetId) then .error "Invalid target"
    else validateLoop packetIds state rest (a.packetId :: seen)

/-- `validateAssignments` from `turnResolver.ts` (the JS `Set` sizes are
the duplicate-free counts). -/
def validateAssignments (state : GameState) (assignments : List Assignment) :
    Except String Unit :=
  match validateLoop (state.dataStream.map fun p => p.id) state assignments [] with
  | .error m => .error m
  | .ok assigned =>
    if assigned.length ≠ (state.dataStream.map fun p => p.id).dedup.length then
      .error "Not all packets assigned"
    else .ok ()

/-- Start-of-turn effects of `resolveTurn` (step 1.1): pending jackpot
bonus and the DATA_LEAK regeneration. -/
def applyStartOfTurn (state : GameState) : GameState :=
  let s1 :=
    if state.jackpotHit then { state with score := state.score + 5000, jackpotHit := false }
    else state
  if s1.anomaly = .DATA_LEAK then
    { s1 with player := { s1.player with hp := min (s1.player.hp + 5) s1.player.maxHp } }
  else s1

/-- Kill-score loop of `resolveTurn` (step 4): +100 per enemy that was
alive in the input state and is dead now, +1000 more for the cache. -/
def killScore (original current : List Enemy) : Nat :=
  current.foldl
    (fun acc e =>
      match original.find? (fun o => o.id == e.id) with
      | some o =>
        if 0 < o.hp ∧ e.hp = 0 then
          acc + 100 + (if e.type = "CACHE_GOLD" then 1000 else 0)
        else acc
      | none => acc)
    0

/-- Packet-application loop of `resolveTurn` (step 3). -/
def applyAssignments (state : GameState) (assignments : List Assignment) :
    Except String GameState :=
  assignments.foldlM
    (fun st a =>
      match st.dataStream.find? (fun p => p.id == a.packetId) with
      | none => .error "Packet not found"
      | some packet => applyPacketEffect st packet a.targetId)
    state

/-- End-of-turn ION_STORM effect of `resolveTurn` (step 5.1). -/
def applyEndOfTurn (state : GameState) : GameState :=
  if state.anomaly = .ION_STORM then
    let s1 := applyDamageToPlayer state 5
    let s2 := { s1 with enemies := s1.enemies.map fun e =>
                  if 0 < e.hp then { e with hp := e.hp - 5 } else e }
    removeDeadEnemies s2
  else state

/-- Steps 4–8 of `resolveTurn` (everything after the fallible packet
application): kill score, dead-enemy removal, enemy phase, end-of-turn
anomaly, hand clearing, turn increment, result evaluation and victory
bonuses. `currentState` is the immutable input state used by the
kill-score comparison. -/
def finishTurn (currentState nextState0 : GameState) : GameState :=
  let nextState :=
    { nextState0 with
        score := nextState0.score + killScore currentState.enemies nextState0.enemies }
  let nextState := removeDeadEnemies nextState
  let nextState := executeEnemyPhase nextState
  let nextState := applyEndOfTurn nextState
  let nextState :=
    { nextState with
        assignments := ([] : List Assignment)
        dataStream := ([] : List Packet)
        turnCounter := nextState.turnCounter + 1 }
  let result := checkTurnResult nextState
  if result = .VICTORY ∨ result = .DEFEAT then
    let s := { nextState with status := GameStatus.RESOLVED }
    if result = .VICTORY then
      let s := { s with score := s.score + 500 }
      if s.player.hp = s.player.maxHp then { s with score := s.score + 200 } else s
    else s
  else { nextState with status := GameStatus.WAITING_FOR_VRF }

/-- `resolveTurn` from `turnResolver.ts`. -/
def resolveTurn (currentState : GameState) (assignments : List Assignment) :
    Except String GameState := do
  let nextState := applyStartOfTurn currentState
  validateAssignments nextState assignments
  let nextState ← applyAssignments nextState assignments
  pure (finishTurn currentState nextState)

end Client

namespace Sol

/-! ### On-chain verifier — `TurnVerifier.sol` combat -/

/-- Player state (`struct Player`). -/
structure Player where
  hp : Nat
  maxHp : Nat
  shield : Nat
deriving DecidableEq, Repr

/-- Enemy state (`struct Enemy`). -/
structure Enemy where
  id : Nat
  hp : Nat
  maxHp : Nat
  damage : Nat
  isAttacking : Bool
  isCache : Bool
deriving DecidableEq, Repr

/-- Assignment (`struct Assignment`): `targetType` 0 = trash, 1 = player,
`n + 2` = enemy index `n`. -/
structure Assignment where
  packetIndex : Nat
  targetType : Nat
deriving DecidableEq, Repr

/-- Turn result (`enum TurnResult`). -/
inductive TurnResult where
  | CONTINUE | VICTORY | DEFEAT
deriving DecidableEq, Repr

/-- `TurnVerifier.applyPacketToPlayer`: HEAL caps at maxHp, DEFEND adds
shield, and ATTACK/CRIT/MISS on the player have **no effect**. -/
def applyPacketToPlayer (player : Player) (packet : Packet) : Player :=
  if packet.packetType = .HEAL then
    let newHp := player.hp + packet.value
    { player with hp := if newHp > player.maxHp then player.maxHp else newHp }
  else if packet.packetType = .DEFEND then
    { player with shield := player.shield + packet.value }
  else player

/-- `TurnVerifier.applyPacketToEnemy`: cache immunity (CRIT destroys,
everything else deflected), otherwise ATTACK/CRIT damage floored at 0. -/
def applyPacketToEnemy (enemy : Enemy) (packet : Packet) : Enemy :=
  if enemy.isCache then
    if packet.packetType = .CRIT then { enemy with hp := 0 } else enemy
  else if packet.packetType = .ATTACK ∨ packet.packetType = .CRIT then
    if enemy.hp > packet.value then { enemy with hp := enemy.hp - packet.value }
    else { enemy with hp := 0 }
  else enemy

/-- `TurnVerifier.applyDamageToPlayer`: shield absorbed first (early
return when the shield covers all damage), remainder floored at hp 0. -/
def applyDamageToPlayer (player : Player) (damage : Nat) : Player :=
  if 0 < player.shield ∧ damage ≤ player.shield then
    { player with shield := player.shield - damage }
  else
    let rem := damage - player.shield
    let p := { player with shield := 0 }
    if p.hp > rem then { p with hp := p.hp - rem } else { p with hp := 0 }

/-- `TurnVerifier.executeEnemyPhase`: each living attacking enemy damages
the player. -/
def executeEnemyPhase (player : Player) (enemies : List Enemy) : Player :=
  enemies.foldl
    (fun pl e => if 0 < e.hp ∧ e.isAttacking then applyDamageToPlayer pl e.damage else pl)
    player

/-- `TurnVerifier.checkTurnResult`. -/
def checkTurnResult (player : Player) (enemies : List Enemy) : TurnResult :=
  if player.hp = 0 then .DEFEAT
  else if ∀ e ∈ enemies, e.hp = 0 then .VICTORY
  else .CONTINUE

/-- Phase 1 of `TurnVerifier.resolveTurn`: apply every assignment in
order (the packet is fetched before the trash test, so an out-of-range
packet index reverts even for a trashed packet). -/
def phase1 (hand : List Packet) (player : Player) (enemies : List Enemy)
    (assignments : List Assignment) : Except String (Player × List Enemy) :=
  assignments.foldlM
    (fun (pe : Player × List Enemy) a =>
      if h : a.packetIndex < hand.length then
        let packet := hand.get ⟨a.packetIndex, h⟩
        if a.targetType = 0 then .ok pe
        else if a.targetType = 1 then .ok (applyPacketToPlayer pe.1 packet, pe.2)
        else
          let enemyIndex := a.targetType - 2
          if enemyIndex < pe.2.length then
            .ok (pe.1, pe.2.set enemyIndex
                  (applyPacketToEnemy (pe.2.getD enemyIndex ⟨0, 0, 0, 0, false, false⟩) packet))
          else .error "Invalid enemy target"
      else .error "Index out of bounds")
    (player, enemies)

/-- Kill-score loop of `TurnVerifier.resolveTurn` (positional pairing of
initial and new enemies; the two lists always have equal length there). -/
def killScore (initialEnemies newEnemies : List Enemy) : Nat :=
  (initialEnemies.zip newEnemies).foldl
    (fun acc p =>
      if 0 < p.1.hp ∧ p.2.hp = 0 then
        acc + 100 + (if p.2.isCache then 1000 else 0)
      else acc)
    0

/-- `TurnVerifier.resolveTurn`. -/
def resolveTurn (levelSeed : List Nat) (initialPlayer : Player)
    (initialEnemies : List Enemy) (turn : Nat) (assignments : List Assignment)
    (initialScore : Nat) :
    Except String (Player × List Enemy × TurnResult × Nat) := do
  let hand := deriveHand levelSeed turn
  if assignments.length ≠ hand.length then .error "Invalid assignment count"
  else do
    let pe ← phase1 hand initialPlayer initialEnemies assignments
    let p1 := pe.1
    let es1 := pe.2
    let score1 := initialScore + killScore initialEnemies es1
    let r1 := checkTurnResult p1 es1
    let p2r2 : Player × TurnResult :=
      if r1 = .CONTINUE then
        let p2 := executeEnemyPhase p1 es1
        (p2, checkTurnResult p2 es1)
      else (p1, r1)
    let p2 := p2r2.1
    let r2 := p2r2.2
    let score2 :=
      if r2 = .VICTORY then score1 + 500 + (if p2.hp = p2.maxHp then 200 else 0)
      else score1
    .ok (p2, es1, r2, score2)

/-- Big-endian fixed-width byte encoding (`abi.encodePacked` of a
`w`-byte unsigned integer). -/
def beBytes (n w : Nat) : List Nat :=
  (List.range w).map fun i => (n >>> (8 * (w - 1 - i))) % 256

/-- Packed encoding of one enemy inside `computeStateHash`. -/
def enemyBytes (e : Enemy) : List Nat :=
  beBytes e.id 1 ++ beBytes e.hp 2 ++ beBytes e.maxHp 2 ++ beBytes e.damage 1 ++
    [if e.isAttacking then 1 else 0] ++ [if e.isCache then 1 else 0]

/-- `TurnVerifier.computeStateHash`: keccak over the packed player, turn,
score and the enemies **in array order** (no sorting). -/
def computeStateHash (player : Player) (enemies : List Enemy) (turn score : Nat) :
    List Nat :=
  keccak256 (beBytes player.hp 2 ++ beBytes player.maxHp 2 ++ beBytes player.shield 2 ++
    beBytes turn 1 ++ beBytes score 4 ++ (enemies.map enemyBytes).flatten)

end Sol

/-! ## C1 — the two hand derivations disagree -/

/-- Claim C1 (code bug in the mirror): at the all-zero session seed and
turn 1, the client derivation hashes `seed ++ "Turn1"` (decimal ASCII turn
marker) and takes its type bytes at indices 0,2,4,…, while the on-chain
derivation hashes `seed ++ "Turn" ++ 0x01` (single raw turn byte) and
takes bytes at indices 0,1,2,…  The two ordered source-byte sequences
disagree (already at position 0), so the two engines do not derive the
same hand, contrary to the mirror contract stated in both sources. -/
theorem clientOnchainHandDivergence :
    ((Client.derivePacketsFromSeed zeroSeed 1).map fun r =>
        r.1.map Client.Packet.byteValue) = .ok [184, 236, 6, 237, 229, 5] ∧
    (Sol.deriveHand zeroSeed 1).map Sol.Packet.byteValue =
        [177, 134, 71, 116, 10, 40] ∧
    ((Client.derivePacketsFromSeed zeroSeed 1).map fun r =>
        r.1.map Client.Packet.byteValue) ≠
      .ok ((Sol.deriveHand zeroSeed 1).map Sol.Packet.byteValue) := by
  refine ⟨by decide, by decide, by decide⟩

/-! ## Shared helper lemmas -/

/-- Updating the first enemy with a given id is visible to a subsequent
lookup of that id, provided the update preserves the id. -/
theorem findUpdateFirstEnemy (l : List Client.Enemy) (tid : String)
    (f : Client.Enemy → Client.Enemy) (e : Client.Enemy)
    (hf : ∀ a, (f a).id = a.id)
    (h : l.find? (fun x => x.id == tid) = some e) :
    (Client.updateFirstEnemy l tid f).find? (fun x => x.id == tid) = some (f e) := by
  induction l with
  | nil => simp [List.find?] at h
  | cons x rest ih =>
    by_cases hx : x.id = tid
    · have hfind : (x.id == tid) = true := by simp [hx]
      rw [List.find?] at h
      rw [hfind] at h
      simp at h
      subst h
      simp [Client.updateFirstEnemy, hx, List.find?, hf]
    · have hfind : (x.id == tid) = false := by simp [hx]
      rw [List.find?] at h
      rw [hfind] at h
      simp [Client.updateFirstEnemy, hx, List.find?, hfind]
      exact ih h

/-! ## C8 — shield-then-hp damage absorption, both engines -/

/-- Claim C8: for shield `s`, hp `h` and incoming damage `d`: if `d ≤ s`
the shield drops to `s - d` and hp is unchanged; if `d > s` the shield
drops to 0 and hp becomes `h - (d - s)` floored at 0 (`Nat` subtraction
is exactly that floor) — in the client `applyDamageToPlayer` (acting on a
game state) and the on-chain `applyDamageToPlayer` (uint16 bounds carried
as hypotheses). -/
theorem shieldThenHpBoth (st : Client.GameState) (d : Nat) (sp : Sol.Player) (sd : Nat)
    (hhp : sp.hp < 2 ^ 16) (hsh : sp.shield < 2 ^ 16) (hsd : sd < 2 ^ 16) :
    ((d ≤ st.player.shield →
        (Client.applyDamageToPlayer st d).player.shield = st.player.shield - d ∧
        (Client.applyDamageToPlayer st d).player.hp = st.player.hp) ∧
      (st.player.shield < d →
        (Client.applyDamageToPlayer st d).player.shield = 0 ∧
        (Client.applyDamageToPlayer st d).player.hp =
          st.player.hp - (d - st.player.shield))) ∧
    ((sd ≤ sp.shield → Sol.applyDamageToPlayer sp sd = { sp with shield := sp.shield - sd }) ∧
      (sp.shield < sd →
        Sol.applyDamageToPlayer sp sd =
          { sp with shield := 0, hp := sp.hp - (sd - sp.shield) })) := by
  constructor
  · constructor
    · intro hle
      simp only [Client.applyDamageToPlayer]
      split_ifs <;> (try simp) <;> omega
    · intro hlt
      simp only [Client.applyDamageToPlayer]
      split_ifs <;> (try simp) <;> omega
  · obtain ⟨h, mh, s⟩ := sp
    constructor
    · intro hle
      simp only [Sol.applyDamageToPlayer]
      split_ifs <;> (try simp_all) <;> omega
    · intro hlt
      simp only [Sol.applyDamageToPlayer]
      split_ifs <;> (try simp_all) <;> omega

/-- Witness for C8: a concrete state with shield 3 and hp 100 taking 5
damage in both engines. -/
theorem shieldThenHpBothWitness :
    ((Client.applyDamageToPlayer
        { status := .PLANNING, levelSeed := "0x00", turnCounter := 1, levelId := 1,
          grid := ⟨6, 6⟩, player := ⟨100, 100, 3, ⟨0, 2⟩⟩, enemies := [],
          dataStream := [], assignments := [], score := 0, anomaly := .STABLE,
          jackpotHit := false } 5).player.shield = 0 ∧
      (Client.applyDamageToPlayer
        { status := .PLANNING, levelSeed := "0x00", turnCounter := 1, levelId := 1,
          grid := ⟨6, 6⟩, player := ⟨100, 100, 3, ⟨0, 2⟩⟩, enemies := [],
          dataStream := [], assignments := [], score := 0, anomaly := .STABLE,
          jackpotHit := false } 5).player.hp = 100 - (5 - 3)) ∧
    Sol.applyDamageToPlayer ⟨100, 100, 3⟩ 5 = ⟨98, 100, 0⟩ := by
  have h := shieldThenHpBoth
    { status := .PLANNING, levelSeed := "0x00", turnCounter := 1, levelId := 1,
      grid := ⟨6, 6⟩, player := ⟨100, 100, 3, ⟨0, 2⟩⟩, enemies := [],
      dataStream := [], assignments := [], score := 0, anomaly := .STABLE,
      jackpotHit := false } 5 ⟨100, 100, 3⟩ 5 (by decide) (by decide) (by decide)
  refine ⟨h.1.2 (by decide), ?_⟩
  have h2 := h.2.2 (by decide)
  simpa using h2

/-! ## Concrete fixtures for witnesses and counterexamples -/

/-- A plain planning-phase client state with full-health player. -/
def sampleState : Client.GameState :=
  { status := .PLANNING, levelSeed := "0x00", turnCounter := 1, levelId := 1,
    grid := ⟨6, 6⟩, player := ⟨100, 100, 0, ⟨0, 2⟩⟩, enemies := [],
    dataStream := [], assignments := [], score := 0, anomaly := .STABLE,
    jackpotHit := false }

/-- A drone at 2 hp. -/
def droneEnemy : Client.Enemy :=
  ⟨"enemy-0", "DRONE_B", 2, 15, "drone", ⟨1, 1⟩, .ATTACK, 3⟩

/-- The sample state with the low-hp drone on the board. -/
def enemyState : Client.GameState := { sampleState with enemies := [droneEnemy] }

/-- A common CRIT packet (source byte 220). -/
def critPkt : Client.Packet := ⟨"packet-0", "0xDC", 220, .CRIT, .COMMON, 15⟩

/-- A common ATTACK packet (source byte 100). -/
def attackPkt : Client.Packet := ⟨"packet-0", "0x64", 100, .ATTACK, .COMMON, 5⟩

/-! ## C7 — self-targeted ATTACK/CRIT packets -/

/-- Claim C7, counterexample: a COMMON ATTACK packet of magnitude 5
assigned to the player hits the client player for 5 (hp 100 → 95), but
the on-chain `applyPacketToPlayer` leaves the player **unchanged** —
so the packet's magnitude is *not* applied as damage in both
implementations, and applying the shield-then-hp rule would have changed
the on-chain player. -/
theorem selfDamageCounterexample :
    Client.applyPacketEffect sampleState attackPkt "player" =
      .ok { sampleState with player := { sampleState.player with hp := 95 } } ∧
    Sol.applyPacketToPlayer ⟨100, 100, 0⟩ ⟨100, .ATTACK, 5⟩ = ⟨100, 100, 0⟩ ∧
    Sol.applyDamageToPlayer ⟨100, 100, 0⟩ 5 ≠ ⟨100, 100, 0⟩ := by
  decide

/-- Claim C7 as amended: the **client** resolver treats a SELF-targeted
ATTACK or CRIT packet as damage to the player through the shield-then-hp
rule (at the packet's effective magnitude); the **on-chain**
`applyPacketToPlayer` instead ignores ATTACK, CRIT and MISS packets on
the player entirely (only HEAL and DEFEND have an effect). -/
theorem selfDamageAmended :
    (∀ (st : Client.GameState) (pkt : Client.Packet),
        pkt.type = .ATTACK ∨ pkt.type = .CRIT →
        Client.applyPacketEffect st pkt "player" =
          .ok (Client.applyDamageToPlayer st (Client.effectiveValue st.anomaly pkt))) ∧
    (∀ (p : Sol.Player) (pkt : Sol.Packet),
        pkt.packetType = .ATTACK ∨ pkt.packetType = .CRIT ∨ pkt.packetType = .MISS →
        Sol.applyPacketToPlayer p pkt = p) := by
  constructor
  · intro st pkt h
    unfold Client.applyPacketEffect
    rw [if_neg (by decide : ¬("player" : String) = "trash")]
    rw [if_pos rfl]
    rcases h with h | h <;> rw [h]
  · intro p pkt h
    unfold Sol.applyPacketToPlayer
    rcases h with h | h | h <;> simp [h]

/-- Witness for the amended C7: the ATTACK packet on the sample state and
a MISS packet on an on-chain player. -/
theorem selfDamageAmendedWitness :
    Client.applyPacketEffect sampleState attackPkt "player" =
      .ok (Client.applyDamageToPlayer sampleState
        (Client.effectiveValue sampleState.anomaly attackPkt)) ∧
    Sol.applyPacketToPlayer ⟨100, 100, 7⟩ ⟨10, .MISS, 0⟩ = ⟨100, 100, 7⟩ :=
  ⟨selfDamageAmended.1 sampleState attackPkt (Or.inl rfl),
   selfDamageAmended.2 ⟨100, 100, 7⟩ ⟨10, .MISS, 0⟩ (Or.inr (Or.inr rfl))⟩

/-! ## C9 — enemy damage floored at zero, overkill discarded -/

/-- Claim C9: on a non-cache enemy, an ATTACK or CRIT packet sets the
enemy hp to `max 0 (hp − effective magnitude)` (overkill discarded, hp
never negative), and DEFEND/HEAL/MISS packets leave enemy hp unchanged —
in the client `applyPacketEffect` and the on-chain `applyPacketToEnemy`.
(`Nat` subtraction realizes the `max 0` floor; the explicit `max` form
over `ℤ` is part of the statement.) -/
theorem enemyOverkillBoth
    (st : Client.GameState) (pkt : Client.Packet) (tid : String) (enemy : Client.Enemy)
    (hp1 : ¬tid = "player") (ht1 : ¬tid = "trash")
    (hfind : st.enemies.find? (fun e => e.id == tid) = some enemy)
    (hnc : ¬enemy.type = "CACHE_GOLD")
    (se : Sol.Enemy) (spkt : Sol.Packet) (hsc : se.isCache = false) :
    ((pkt.type = .ATTACK ∨ pkt.type = .CRIT →
        ∃ st2, Client.applyPacketEffect st pkt tid = .ok st2 ∧
          st2.enemies.find? (fun e => e.id == tid) =
            some { enemy with hp := enemy.hp - Client.effectiveValue st.anomaly pkt } ∧
          ((enemy.hp - Client.effectiveValue st.anomaly pkt : Nat) : ℤ) =
            max 0 ((enemy.hp : ℤ) - (Client.effectiveValue st.anomaly pkt : ℤ))) ∧
      (pkt.type = .DEFEND ∨ pkt.type = .HEAL ∨ pkt.type = .MISS →
        Client.applyPacketEffect st pkt tid = .ok st)) ∧
    ((spkt.packetType = .ATTACK ∨ spkt.packetType = .CRIT →
        Sol.applyPacketToEnemy se spkt = { se with hp := se.hp - spkt.value } ∧
        ((se.hp - spkt.value : Nat) : ℤ) = max 0 ((se.hp : ℤ) - (spkt.value : ℤ))) ∧
      (spkt.packetType = .MISS ∨ spkt.packetType = .DEFEND ∨ spkt.packetType = .HEAL →
        Sol.applyPacketToEnemy se spkt = se)) := by
  refine ⟨⟨fun h => ?_, fun h => ?_⟩, ⟨fun h => ?_, fun h => ?_⟩⟩
  · refine ⟨{ st with enemies := Client.updateFirstEnemy st.enemies tid fun e =>
        { e with hp := e.hp - Client.effectiveValue st.anomaly pkt } }, ?_, ?_, ?_⟩
    · unfold Client.applyPacketEffect
      rw [if_neg ht1, if_neg hp1, hfind]
      simp only [hnc, if_neg, if_false]
      rcases h with h | h <;> rw [h]
    · exact findUpdateFirstEnemy st.enemies tid _ enemy (fun a => rfl) hfind
    · omega
  · unfold Client.applyPacketEffect
    rw [if_neg ht1, if_neg hp1, hfind]
    simp only [hnc, if_neg, if_false]
    rcases h with h | h | h <;> rw [h]
  · unfold Sol.applyPacketToEnemy
    rw [hsc]
    simp only [Bool.false_eq_true, if_false]
    rw [if_pos h]
    constructor
    · split_ifs with hgt
      · congr 1
      · have : se.hp - spkt.value = 0 := by omega
        rw [this]
    · omega
  · unfold Sol.applyPacketToEnemy
    rw [hsc]
    simp only [Bool.false_eq_true, if_false]
    rw [if_neg (by rcases h with h | h | h <;> rw [h] <;> decide)]

/-- Witness for C9: the CRIT packet (magnitude 15) on the 2-hp drone ends
at exactly 0 hp in both engines. -/
theorem enemyOverkillBothWitness :
    (∃ st2, Client.applyPacketEffect enemyState critPkt "enemy-0" = .ok st2 ∧
      st2.enemies.find? (fun e => e.id == "enemy-0") =
        some { droneEnemy with hp := droneEnemy.hp - Client.effectiveValue enemyState.anomaly critPkt } ∧
      ((droneEnemy.hp - Client.effectiveValue enemyState.anomaly critPkt : Nat) : ℤ) =
        max 0 ((droneEnemy.hp : ℤ) - (Client.effectiveValue enemyState.anomaly critPkt : ℤ))) ∧
    Sol.applyPacketToEnemy ⟨0, 2, 15, 3, true, false⟩ ⟨220, .CRIT, 15⟩ =
      ⟨0, 0, 15, 3, true, false⟩ := by
  have h := enemyOverkillBoth enemyState critPkt "enemy-0" droneEnemy
    (by decide) (by decide) (by decide) (by decide)
    ⟨0, 2, 15, 3, true, false⟩ ⟨220, .CRIT, 15⟩ rfl
  exact ⟨h.1.1 (Or.inr rfl), by simpa using (h.2.1 (Or.inr rfl)).1⟩

/-! ## C4 — invalid assignments resolve nothing -/

/-- `Except.ok` bind reduction. -/
theorem exceptBindOk {α β : Type} (v : α) (k : α → Except String β) :
    (Except.ok v >>= k) = k v := rfl

/-- `Except.error` bind reduction. -/
theorem exceptBindErr {α β : Type} (msg : String) (k : α → Except String β) :
    ((Except.error msg : Except String α) >>= k) = Except.error msg := rfl

/-- Success of the validation loop pins down the accumulator: the
processed ids in reverse order on top of `seen`, all existing and with
valid targets, pairwise distinct and disjoint from `seen`. -/
theorem validateLoopOk (pids : List String) (st : Client.GameState) :
    ∀ (asg : List Client.Assignment) (seen res : List String),
      Client.validateLoop pids st asg seen = .ok res →
      res = (asg.map fun a => a.packetId).reverse ++ seen ∧
      (∀ a ∈ asg, pids.contains a.packetId = true ∧
        Client.validTarget st a.targetId = true) ∧
      (∀ a ∈ asg, a.packetId ∉ seen) ∧
      (asg.map fun a => a.packetId).Nodup := by
  intro asg
  induction asg with
  | nil =>
    intro seen res h
    unfold Client.validateLoop at h
    injection h with h
    subst h
    simp
  | cons a rest ih =>
    intro seen res h
    unfold Client.validateLoop at h
    split at h
    · cases h
    · split at h
      · cases h
      · split at h
        · cases h
        · rename_i h1 h2 h3
          obtain ⟨hres, hall, hseen, hnd⟩ := ih (a.packetId :: seen) res h
          have hc1 : pids.contains a.packetId = true := by simpa using h1
          have hc2 : a.packetId ∉ seen := by simpa using h2
          have hc3 : Client.validTarget st a.targetId = true := by simpa using h3
          refine ⟨?_, ?_, ?_, ?_⟩
          · rw [hres]
            simp
          · intro a2 ha2
            rcases List.mem_cons.mp ha2 with h | h
            · subst h; exact ⟨hc1, hc3⟩
            · exact hall a2 h
          · intro a2 ha2
            rcases List.mem_cons.mp ha2 with h | h
            · subst h; exact hc2
            · intro hmem
              exact hseen a2 h (List.mem_cons_of_mem _ hmem)
          · rw [List.map_cons, List.nodup_cons]
            refine ⟨?_, hnd⟩
            intro hmem
            rcases List.mem_map.mp hmem with ⟨a2, ha2, hpid⟩
            exact hseen a2 ha2 (by rw [hpid]; exact List.mem_cons_self _ _)

/-- Successful validation implies the three claimed well-formedness
properties: no duplicate packet assignment, every assignment names an
existing packet and a valid target, and every hand packet is covered. -/
theorem validateAssignmentsOk (st : Client.GameState) (asg : List Client.Assignment)
    (h : Client.validateAssignments st asg = .ok ()) :
    (asg.map fun a => a.packetId).Nodup ∧
    (∀ a ∈ asg, a.packetId ∈ st.dataStream.map (fun p => p.id) ∧
      Client.validTarget st a.targetId = true) ∧
    (∀ p ∈ st.dataStream, ∃ a ∈ asg, a.packetId = p.id) := by
  unfold Client.validateAssignments at h
  cases hl : Client.validateLoop (st.dataStream.map fun p => p.id) st asg [] with
  | error m =>
    rw [hl] at h
    cases h
  | ok res =>
    rw [hl] at h
    dsimp only at h
    obtain ⟨hres, hall, _, hnd⟩ := validateLoopOk _ st asg [] res hl
    have hlen : res.length = (st.dataStream.map fun p => p.id).dedup.length := by
      by_contra hne
      rw [if_pos hne] at h
      cases h
    refine ⟨hnd, ?_, ?_⟩
    · intro a ha
      obtain ⟨h1, h2⟩ := hall a ha
      exact ⟨by simpa using h1, h2⟩
    · -- coverage: the distinct assigned ids and the distinct hand ids
      -- have the same cardinality and the former is contained in the
      -- latter, so the sets coincide.
      have hressub : ∀ x ∈ res, x ∈ (st.dataStream.map fun p => p.id).dedup := by
        intro x hx
        rw [hres] at hx
        simp only [List.append_nil, List.mem_reverse] at hx
        rcases List.mem_map.mp hx with ⟨a2, ha2, hpid⟩
        rw [List.mem_dedup, ← hpid]
        simpa using (hall a2 ha2).1
      have hresnd : res.Nodup := by
        rw [hres]
        simpa using hnd
      have hseteq : res.toFinset = (st.dataStream.map fun p => p.id).dedup.toFinset := by
        apply Finset.eq_of_subset_of_card_le
        · intro x hx
          rw [List.mem_toFinset] at hx ⊢
          exact hressub x hx
        · rw [List.toFinset_card_of_nodup hresnd,
            List.toFinset_card_of_nodup (List.nodup_dedup _), hlen]
      intro p hp
      have hpid : p.id ∈ res := by
        have : p.id ∈ (st.dataStream.map fun p => p.id).dedup.toFinset := by
          rw [List.mem_toFinset, List.mem_dedup]
          exact List.mem_map.mpr ⟨p, hp, rfl⟩
        rw [← hseteq, List.mem_toFinset] at this
        exact this
      rw [hres] at hpid
      simp only [List.append_nil, List.mem_reverse] at hpid
      rcases List.mem_map.mp hpid with ⟨a2, ha2, hpid2⟩
      exact ⟨a2, ha2, hpid2⟩

/-- The start-of-turn effects touch only score, jackpot flag and player
hp, so the validated collections are unchanged. -/
theorem applyStartOfTurnFrame (st : Client.GameState) :
    (Client.applyStartOfTurn st).dataStream = st.dataStream ∧
    (Client.applyStartOfTurn st).enemies = st.enemies := by
  cases hj : st.jackpotHit <;> by_cases ha : st.anomaly = .DATA_LEAK <;>
    simp [Client.applyStartOfTurn, hj, ha]

/-- Claim C4: whenever `resolveTurn` is called with assignments violating
validation — some hand packet not assigned, a packet assigned more than
once, or a target that is neither the player, the trash selector, nor an
existing enemy — it returns an error and no next state (the embedding is
pure, so the input state is trivially left unchanged: no effect of the
resolution is applied). -/
theorem resolveTurnInvalidAssignments (st : Client.GameState) (asg : List Client.Assignment)
    (hbad :
      (∃ p ∈ st.dataStream, ∀ a ∈ asg, a.packetId ≠ p.id) ∨
      ¬(asg.map fun a => a.packetId).Nodup ∨
      (∃ a ∈ asg, a.targetId ≠ "player" ∧ a.targetId ≠ "trash" ∧
        ∀ e ∈ st.enemies, e.id ≠ a.targetId)) :
    ∃ msg, Client.resolveTurn st asg = .error msg := by
  obtain ⟨hds, hen⟩ := applyStartOfTurnFrame st
  cases hv : Client.validateAssignments (Client.applyStartOfTurn st) asg with
  | error m =>
    refine ⟨m, ?_⟩
    unfold Client.resolveTurn
    dsimp only
    rw [hv, exceptBindErr]
  | ok u =>
    exfalso
    cases u
    obtain ⟨hnd, hall, hcov⟩ := validateAssignmentsOk _ asg hv
    rcases hbad with ⟨p, hp, hnone⟩ | hdup | ⟨a, ha, hnp, hnt, hne⟩
    · rw [hds] at hcov
      obtain ⟨a, ha, hpid⟩ := hcov p hp
      exact hnone a ha hpid
    · exact hdup hnd
    · have := (hall a ha).2
      unfold Client.validTarget at this
      rw [hen] at this
      simp only [Bool.or_eq_true, beq_iff_eq, List.any_eq_true] at this
      rcases this with (h | h) | ⟨e, he, hid⟩
      · exact hnp h
      · exact hnt h
      · exact hne e he hid

/-- Witness for C4: a hand with one packet and an empty assignment list
fails to resolve. -/
theorem resolveTurnInvalidAssignmentsWitness :
    ∃ msg, Client.resolveTurn { sampleState with dataStream := [attackPkt] } [] = .error msg :=
  resolveTurnInvalidAssignments _ []
    (Or.inl ⟨attackPkt, by simp, by simp⟩)

/-! ## C10 — the jackpot bonus is awarded exactly once per flag -/

/-- After the start-of-turn step the jackpot flag is always cleared. -/
theorem applyStartOfTurnJackpotFalse (st : Client.GameState) :
    (Client.applyStartOfTurn st).jackpotHit = false := by
  cases hj : st.jackpotHit <;> by_cases ha : st.anomaly = .DATA_LEAK <;>
    simp [Client.applyStartOfTurn, hj, ha]

/-- Shield-then-hp damage never touches the jackpot flag. -/
theorem applyDamageToPlayerJackpot (st : Client.GameState) (d : Nat) :
    (Client.applyDamageToPlayer st d).jackpotHit = st.jackpotHit := rfl

/-- Packet application never touches the jackpot flag. -/
theorem applyPacketEffectJackpot (st : Client.GameState) (p : Client.Packet)
    (t : String) (st2 : Client.GameState)
    (h : Client.applyPacketEffect st p t = .ok st2) :
    st2.jackpotHit = st.jackpotHit := by
  unfold Client.applyPacketEffect at h
  dsimp only at h
  repeat' split at h
  all_goals
    first
      | (injection h with h2; subst h2; rfl)
      | injection h

/-- The whole packet-application loop never touches the jackpot flag. -/
theorem applyAssignmentsJackpot :
    ∀ (asg : List Client.Assignment) (st st2 : Client.GameState),
      Client.applyAssignments st asg = .ok st2 → st2.jackpotHit = st.jackpotHit := by
  intro asg
  induction asg with
  | nil =>
    intro st st2 h
    injection h with h2
    subst h2
    rfl
  | cons a rest ih =>
    intro st st2 h
    unfold Client.applyAssignments at h
    rw [List.foldlM_cons] at h
    cases hfind : st.dataStream.find? (fun p => p.id == a.packetId) with
    | none =>
      rw [hfind] at h
      dsimp only at h
      rw [exceptBindErr] at h
      cases h
    | some packet =>
      rw [hfind] at h
      dsimp only at h
      cases happ : Client.applyPacketEffect st packet a.targetId with
      | error m =>
        rw [happ, exceptBindErr] at h
        cases h
      | ok s1 =>
        rw [happ, exceptBindOk] at h
        have h1 := ih s1 st2 h
        rw [h1]
        exact applyPacketEffectJackpot st packet a.targetId s1 happ

/-- The enemy-phase fold never touches the jackpot flag. -/
theorem enemyPhaseFoldJackpot (l : List Client.Enemy) :
    ∀ acc : Client.GameState,
      (l.foldl (fun st e =>
          if e.intent = .ATTACK then Client.applyDamageToPlayer st e.damage else st)
        acc).jackpotHit = acc.jackpotHit := by
  induction l with
  | nil => intro acc; rfl
  | cons e rest ih =>
    intro acc
    rw [List.foldl_cons, ih]
    split <;> rfl

/-- `executeEnemyPhase` never touches the jackpot flag. -/
theorem executeEnemyPhaseJackpot (st : Client.GameState) :
    (Client.executeEnemyPhase st).jackpotHit = st.jackpotHit :=
  enemyPhaseFoldJackpot _ st

/-- The end-of-turn anomaly never touches the jackpot flag. -/
theorem applyEndOfTurnJackpot (st : Client.GameState) :
    (Client.applyEndOfTurn st).jackpotHit = st.jackpotHit := by
  unfold Client.applyEndOfTurn
  split <;> rfl

/-- The pure tail of the resolver never touches the jackpot flag. -/
theorem finishTurnJackpot (cs x : Client.GameState) :
    (Client.finishTurn cs x).jackpotHit = x.jackpotHit := by
  unfold Client.finishTurn
  dsimp only
  split_ifs <;>
    simp [Client.removeDeadEnemies, applyEndOfTurnJackpot, executeEnemyPhaseJackpot]

/-- `finishTurn` reads its first argument only through its enemy list. -/
theorem finishTurnEnemiesCongr (a b x : Client.GameState)
    (h : a.enemies = b.enemies) :
    Client.finishTurn a x = Client.finishTurn b x := by
  unfold Client.finishTurn
  rw [h]

/-- Claim C10: resolving with a pending jackpot flag is the same as
resolving with the flag cleared and 5000 points already added (the bonus
is credited at the start of resolution, before any packet effect), and
every successful resolution returns a state with `jackpotHit = false`,
so the pending bonus is consumed at most once (and no bonus is added when
the flag is not set). -/
theorem jackpotOnce :
    (∀ (st : Client.GameState) (asg : List Client.Assignment),
        Client.resolveTurn { st with jackpotHit := true } asg =
          Client.resolveTurn { st with jackpotHit := false, score := st.score + 5000 } asg) ∧
    (∀ (st : Client.GameState) (asg : List Client.Assignment) (out : Client.GameState),
        Client.resolveTurn st asg = .ok out → out.jackpotHit = false) := by
  constructor
  · intro st asg
    have happly : Client.applyStartOfTurn { st with jackpotHit := true } =
        Client.applyStartOfTurn { st with jackpotHit := false, score := st.score + 5000 } := by
      by_cases ha : st.anomaly = .DATA_LEAK <;> simp [Client.applyStartOfTurn, ha]
    unfold Client.resolveTurn
    dsimp only
    rw [happly]
    have hfin :
        (fun ns => pure (Client.finishTurn { st with jackpotHit := true } ns) :
          Client.GameState → Except String Client.GameState) =
        fun ns => pure (Client.finishTurn
          { st with jackpotHit := false, score := st.score + 5000 } ns) :=
      funext fun ns => congrArg pure (finishTurnEnemiesCongr _ _ ns rfl)
    rw [hfin]
  · intro st asg out h
    unfold Client.resolveTurn at h
    dsimp only at h
    cases hv : Client.validateAssignments (Client.applyStartOfTurn st) asg with
    | error m =>
      rw [hv, exceptBindErr] at h
      cases h
    | ok u =>
      rw [hv, exceptBindOk] at h
      cases happ : Client.applyAssignments (Client.applyStartOfTurn st) asg with
      | error m =>
        rw [happ, exceptBindErr] at h
        cases h
      | ok ns =>
        rw [happ, exceptBindOk] at h
        injection h with h2
        subst h2
        rw [finishTurnJackpot, applyAssignmentsJackpot asg _ ns happ,
          applyStartOfTurnJackpotFalse]

/-- Witness for C10: resolving the empty-board sample state with the
jackpot flag set equals resolving it with the flag cleared and 5000
points pre-credited, and the returned state (score 5700 after the
victory and flawless bonuses) has the flag cleared. -/
theorem jackpotOnceWitness :
    Client.resolveTurn { sampleState with jackpotHit := true } [] =
      Client.resolveTurn
        { sampleState with jackpotHit := false, score := sampleState.score + 5000 } [] ∧
    ({ sampleState with status := .RESOLVED, turnCounter := 2, score := 5700 } :
      Client.GameState).jackpotHit = false :=
  ⟨jackpotOnce.1 sampleState [],
   jackpotOnce.2 { sampleState with jackpotHit := true } []
     { sampleState with status := .RESOLVED, turnCounter := 2, score := 5700 }
     (by decide)⟩

/-! ## C6 — when is the enemy counter-attack phase applied? -/

/-- A client state whose player is already at 0 hp with 5 shield, facing
one live attacking drone, with an empty hand. -/
def defeatState : Client.GameState :=
  { sampleState with
      player := ⟨0, 100, 5, ⟨0, 2⟩⟩
      enemies := [⟨"enemy-0", "DRONE_B", 15, 15, "drone", ⟨1, 1⟩, .ATTACK, 3⟩] }

/-- Claim C6, counterexample: in the client resolver the enemy phase runs
**unconditionally** — resolving the 0-hp-player state applies the live
enemy's 3 intended damage and drains the shield from 5 to 2, even though
the result at that point is DEFEAT. The claim predicted the shield to be
left untouched. -/
theorem enemyPhaseDefeatCounterexample :
    defeatState.player.hp = 0 ∧
    (Client.resolveTurn defeatState []).map (fun s => s.player.shield) = .ok 2 ∧
    (Client.resolveTurn defeatState []).map (fun s => s.player.shield) ≠
      .ok defeatState.player.shield := by
  decide

/-- Claim C6 as amended: the **on-chain** resolver gates the enemy phase
on the result evaluated after packet application — when that result is
not CONTINUE (player hp 0 or all enemies dead) the returned player and
enemies are exactly the post-packet ones, with no intendedDamage applied;
the **client** resolver runs the enemy phase unconditionally, which
coincides with the claim only in the no-live-enemy case (then the phase
damages nobody), while a 0-hp player with live attackers still loses
shield (see the counterexample). -/
theorem enemyPhaseGatingAmended :
    (∀ (seed : List Nat) (pl : Sol.Player) (es : List Sol.Enemy) (turn : Nat)
        (asg : List Sol.Assignment) (sc : Nat) (p1 : Sol.Player) (es1 : List Sol.Enemy),
        asg.length = (Sol.deriveHand seed turn).length →
        Sol.phase1 (Sol.deriveHand seed turn) pl es asg = .ok (p1, es1) →
        Sol.checkTurnResult p1 es1 ≠ .CONTINUE →
        ∃ sc2, Sol.resolveTurn seed pl es turn asg sc =
          .ok (p1, es1, Sol.checkTurnResult p1 es1, sc2)) ∧
    (∀ st : Client.GameState, (∀ e ∈ st.enemies, e.hp = 0) →
        Client.executeEnemyPhase st = st) := by
  constructor
  · intro seed pl es turn asg sc p1 es1 hlen hph hne
    unfold Sol.resolveTurn
    dsimp only
    rw [if_neg (not_ne_iff.mpr hlen), hph, exceptBindOk]
    dsimp only
    rw [if_neg hne]
    exact ⟨_, rfl⟩
  · intro st hall
    unfold Client.executeEnemyPhase
    have hfil : st.enemies.filter (fun e => decide (0 < e.hp)) = [] := by
      rw [List.filter_eq_nil_iff]
      intro a ha
      simp [hall a ha]
    rw [hfil]
    rfl

/-- Witness for the amended C6: six trashed packets at the zero seed with
a 0-hp player and one live enemy — the on-chain resolver returns the
post-packet state (result DEFEAT) with the shield intact; and the client
enemy phase is the identity on the enemy-free sample state. -/
theorem enemyPhaseGatingAmendedWitness :
    (∃ sc2, Sol.resolveTurn zeroSeed ⟨0, 100, 5⟩ [⟨0, 15, 15, 3, true, false⟩] 1
        (List.replicate 6 ⟨0, 0⟩) 0 =
      .ok (⟨0, 100, 5⟩, [⟨0, 15, 15, 3, true, false⟩],
        Sol.checkTurnResult ⟨0, 100, 5⟩ [⟨0, 15, 15, 3, true, false⟩], sc2)) ∧
    Client.executeEnemyPhase sampleState = sampleState :=
  ⟨enemyPhaseGatingAmended.1 zeroSeed ⟨0, 100, 5⟩ [⟨0, 15, 15, 3, true, false⟩] 1
      (List.replicate 6 ⟨0, 0⟩) 0 ⟨0, 100, 5⟩ [⟨0, 15, 15, 3, true, false⟩]
      (by decide) (by decide) (by decide),
   enemyPhaseGatingAmended.2 sampleState (by simp [sampleState])⟩

namespace Client

/-! ### Client state serialization — `serializeStateForHash` in
`turnResolver.ts` -/

/-- The literal status strings of the `GameStatus` union. -/
def statusStr : GameStatus → String
  | .INIT => "INIT"
  | .WAITING_FOR_VRF => "WAITING_FOR_VRF"
  | .PLANNING => "PLANNING"
  | .EXECUTING => "EXECUTING"
  | .RESOLVED => "RESOLVED"

/-- Comparison used by the enemy sort: by enemy id
(`localeCompare`, modelled as codepoint order on the ASCII ids). -/
def pairLE (a b : String × Nat) : Prop := a.1 ≤ b.1

instance : DecidableRel pairLE := fun a b => inferInstanceAs (Decidable (a.1 ≤ b.1))

instance : IsTotal (String × Nat) pairLE := ⟨fun a b => le_total a.1 b.1⟩

instance : IsTrans (String × Nat) pairLE := ⟨fun _ _ _ => le_trans⟩

/-- The id-sorted `(id, hp)` projection of the enemy list. -/
def sortEnemyPairs (l : List (String × Nat)) : List (String × Nat) :=
  l.insertionSort pairLE

/-- JSON text of one `(id, hp)` pair. -/
def enemyPairJson (p : String × Nat) : String :=
  "\x7b\"id\":\"" ++ p.1 ++ "\",\"hp\":" ++ natDecStr p.2 ++ "\x7d"

/-- `serializeStateForHash` from `turnResolver.ts`: the normalized JSON
string (`JSON.stringify` of the normalized object, enemies projected to
`(id, hp)` and sorted by id). -/
def serializeStateForHash (state : GameState) : String :=
  let pairs := sortEnemyPairs (state.enemies.map fun e => (e.id, e.hp))
  "\x7b\"status\":\"" ++ statusStr state.status ++
    "\",\"levelSeed\":\"" ++ state.levelSeed ++
    "\",\"turnCounter\":" ++ natDecStr state.turnCounter ++
    ",\"levelId\":" ++ natDecStr state.levelId ++
    ",\"player\":\x7b\"hp\":" ++ natDecStr state.player.hp ++
    ",\"shield\":" ++ natDecStr state.player.shield ++
    "\x7d,\"enemies\":[" ++ String.intercalate "," (pairs.map enemyPairJson) ++ "]\x7d"

end Client

/-! ## C3 — commitment canonicalization -/

/-- Two id-sorted pair lists that are permutations of each other and have
duplicate-free keys are equal. -/
theorem sortedPermNodupEq :
    ∀ l1 l2 : List (String × Nat), l1.Perm l2 →
      l1.Sorted Client.pairLE → l2.Sorted Client.pairLE →
      (l1.map Prod.fst).Nodup → l1 = l2 := by
  intro l1
  induction l1 with
  | nil =>
    intro l2 hp _ _ _
    exact (hp.symm.eq_nil).symm
  | cons a t1 ih =>
    intro l2 hp hs1 hs2 hnd
    cases l2 with
    | nil => cases hp.eq_nil
    | cons b t2 =>
      by_cases heq : a = b
      · subst heq
        obtain ⟨ha1, hs1t⟩ := List.sorted_cons.mp hs1
        obtain ⟨hb2, hs2t⟩ := List.sorted_cons.mp hs2
        have hnd2 : (t1.map Prod.fst).Nodup := by
          rw [List.map_cons, List.nodup_cons] at hnd
          exact hnd.2
        rw [ih t2 hp.cons_inv hs1t hs2t hnd2]
      · exfalso
        have ha2 : a ∈ t2 := by
          have := hp.subset (List.mem_cons_self a t1)
          rcases List.mem_cons.mp this with h | h
          · exact absurd h heq
          · exact h
        have hb1 : b ∈ t1 := by
          have := hp.symm.subset (List.mem_cons_self b t2)
          rcases List.mem_cons.mp this with h | h
          · exact absurd h.symm heq
          · exact h
        have h1 : a.1 ≤ b.1 := (List.sorted_cons.mp hs1).1 b hb1
        have h2 : b.1 ≤ a.1 := (List.sorted_cons.mp hs2).1 a ha2
        have : a = b :=
          List.inj_on_of_nodup_map hnd (List.mem_cons_self a t1)
            (List.mem_cons_of_mem a hb1) (le_antisymm h1 h2)
        exact heq this

/-- First on-chain enemy of the counterexample pair. -/
def solEnemy1 : Sol.Enemy := ⟨0, 15, 15, 3, true, false⟩

/-- Second on-chain enemy of the counterexample pair. -/
def solEnemy2 : Sol.Enemy := ⟨1, 20, 20, 5, true, false⟩

/-- Claim C3, counterexample: the on-chain `computeStateHash` hashes the
enemies in **array order** (no sorting), so supplying the same two
enemies in swapped order produces two different digests. -/
theorem stateHashOrderCounterexample :
    Sol.computeStateHash ⟨100, 100, 0⟩ [solEnemy1, solEnemy2] 1 0 ≠
      Sol.computeStateHash ⟨100, 100, 0⟩ [solEnemy2, solEnemy1] 1 0 := by
  decide

/-- Claim C3 as amended: the **client** serialization is canonicalized —
it sorts the `(id, hp)` pairs by enemy id, so any two enemy orders with
the same multiset of enemies (and duplicate-free ids) serialize, and
hence hash, identically; the **on-chain** `computeStateHash` is **not**
canonicalized: it hashes enemies in array order and the swapped pair
yields a different digest. -/
theorem stateHashCanonicalizationAmended :
    (∀ (st : Client.GameState) (l2 : List Client.Enemy),
        st.enemies.Perm l2 → (st.enemies.map fun e => e.id).Nodup →
        Client.serializeStateForHash { st with enemies := l2 } =
          Client.serializeStateForHash st) ∧
    Sol.computeStateHash ⟨100, 100, 0⟩ [solEnemy1, solEnemy2] 1 0 ≠
      Sol.computeStateHash ⟨100, 100, 0⟩ [solEnemy2, solEnemy1] 1 0 := by
  constructor
  · intro st l2 hperm hnd
    have hpairs : (l2.map fun e => (e.id, e.hp)).Perm
        (st.enemies.map fun e => (e.id, e.hp)) :=
      (hperm.symm.map _)
    have hkeys2 : ((l2.map fun e => (e.id, e.hp)).map Prod.fst).Nodup := by
      have hids : (l2.map fun e => e.id).Nodup :=
        ((hperm.map fun e => e.id)).nodup_iff.mp hnd
      simpa [List.map_map, Function.comp] using hids
    have hsorteq : Client.sortEnemyPairs (l2.map fun e => (e.id, e.hp)) =
        Client.sortEnemyPairs (st.enemies.map fun e => (e.id, e.hp)) := by
      apply sortedPermNodupEq
      · exact (List.perm_insertionSort _ _).trans
          (hpairs.trans (List.perm_insertionSort _ _).symm)
      · exact List.sorted_insertionSort _ _
      · exact List.sorted_insertionSort _ _
      · exact ((List.perm_insertionSort Client.pairLE _).map Prod.fst).nodup_iff.mpr hkeys2
    unfold Client.serializeStateForHash
    dsimp only
    rw [hsorteq]
  · exact stateHashOrderCounterexample

/-- Witness for the amended C3: a two-enemy client state serialized with
its enemies swapped. -/
theorem stateHashCanonicalizationAmendedWitness :
    Client.serializeStateForHash
        { sampleState with
            enemies := [⟨"enemy-1", "FIREWALL_A", 20, 20, "firewall", ⟨2, 2⟩, .ATTACK, 5⟩,
              droneEnemy] } =
      Client.serializeStateForHash
        { sampleState with
            enemies := [droneEnemy,
              ⟨"enemy-1", "FIREWALL_A", 20, 20, "firewall", ⟨2, 2⟩, .ATTACK, 5⟩] } := by
  have h := stateHashCanonicalizationAmended.1
    { sampleState with
        enemies := [droneEnemy,
          ⟨"enemy-1", "FIREWALL_A", 20, 20, "firewall", ⟨2, 2⟩, .ATTACK, 5⟩] }
    [⟨"enemy-1", "FIREWALL_A", 20, 20, "firewall", ⟨2, 2⟩, .ATTACK, 5⟩, droneEnemy]
    (List.Perm.swap _ _ [])
    (by decide)
  exact h

end FB
